import Mathlib

/-!
Verification of the command-and-history subsystem and the processing layer of
the image-processing workbench (commands.py, ui.py, processing.py).

The embedding is a shallow, executable translation of the Python source.
Mutable controller state becomes explicit state passing on a `Ctrl` record;
a `Bool` flag paired with each result records whether the modelled Python
call raised an exception (the state component then reflects exactly the
mutations performed before the raise).  External library routines
(skimage processors, thresholding, gradient filters) are black boxes and are
passed in as function parameters.
-/

/-- A pixel buffer: rows of 8-bit samples.  Image contents are opaque to the
command layer; only value equality matters. -/
abbrev Img := List (List Nat)

/-- The controller surface the core depends on (ui.py
`MainWindowController`): the two image slots plus the two display labels.
A label holds the image it currently presents (`none` after `clear()`);
display normalization is the display sink's own concern and is not modelled
beyond which image was handed to it. -/
structure Ctrl where
  img_source : Option Img
  img_output : Option Img
  lblSource : Option Img
  lblOutput : Option Img
  deriving Repr, DecidableEq

/-- Model of `MainWindowController._show_image(array, label)` (ui.py 356-381):
called with an actual image it renders it into the label; called with `None`
it raises (`None.astype` is an `AttributeError`) before touching the label.
Returns the new label content and the raised flag. -/
def show_image (arr : Option Img) (lbl : Option Img) : Option Img × Bool :=
  match arr with
  | none => (lbl, true)
  | some a => (some a, false)

/-- Command instances (commands.py).  `image id k prev` is any of the nine
`BaseImageCommand` subclasses, bound to processor kind `k`, with the snapshot
`prev` of the controller output taken at construction (`__init__` line 93);
`clearSource id prev_src` stores the source reference at construction
(line 114); `clearOutput id` stores nothing.  The `id` field models Python
object identity of the instance. -/
inductive Cmd where
  | image (id : Nat) (k : Nat) (prev : Option Img)
  | clearSource (id : Nat) (prev_src : Option Img)
  | clearOutput (id : Nat)
  deriving Repr, DecidableEq

/-- Object identity of a command instance. -/
def Cmd.cid : Cmd → Nat
  | .image i _ _ => i
  | .clearSource i _ => i
  | .clearOutput i => i

/-- `execute` of each concrete command, given the black-box processor family
`procs` (`procs k src = none` models `proc.process` raising, in which case no
mutation has happened yet).  An image command computes the output from the
current source, writes it to the output slot and refreshes the display
(commands.py 162-283); the clear commands empty their slot and clear its
label (lines 116-121, 143-148). -/
def Cmd.execute (procs : Nat → Option Img → Option Img) : Cmd → Ctrl → Ctrl × Bool
  | .image _ k _, s =>
    match procs k s.img_source with
    | none => (s, true)
    | some out =>
      let p := show_image (some out) s.lblOutput
      ({ s with img_output := some out, lblOutput := p.1 }, p.2)
  | .clearSource _ _, s => ({ s with img_source := none, lblSource := none }, false)
  | .clearOutput _, s => ({ s with img_output := none, lblOutput := none }, false)

/-- `undo` of each concrete command (commands.py 95-100, 123-128, 150-154):
an image command writes the snapshot back into the output slot and then asks
for a display refresh (which raises when the snapshot is the empty sentinel,
after the slot was already restored); clear-source restores the cached source
reference likewise; clear-output's undo is a no-op by design. -/
def Cmd.undo : Cmd → Ctrl → Ctrl × Bool
  | .image _ _ prev, s =>
    let p := show_image prev s.lblOutput
    ({ s with img_output := prev, lblOutput := p.1 }, p.2)
  | .clearSource _ prev_src, s =>
    let p := show_image prev_src s.lblSource
    ({ s with img_source := prev_src, lblSource := p.1 }, p.2)
  | .clearOutput _, s => (s, false)

/-- `CommandHistory` (commands.py 34-75): two stacks of commands, tail of the
list = top of the stack, matching Python `append`/`pop`. -/
structure CommandHistory where
  undo_stack : List Cmd
  redo_stack : List Cmd
  deriving Repr, DecidableEq

/-- `CommandHistory.push` (commands.py 48-55): append to the undo stack,
unconditionally clear the redo stack. -/
def CommandHistory.push (h : CommandHistory) (cmd : Cmd) : CommandHistory :=
  { undo_stack := h.undo_stack ++ [cmd], redo_stack := [] }

/-- `CommandHistory.undo` (commands.py 57-65): return silently if the undo
stack is empty, otherwise pop the tail command, invoke its `undo`, and append
it to the redo stack.  If the command's `undo` raises, the exception
propagates before the append, so the command lands on neither stack. -/
def CommandHistory.undo (h : CommandHistory) (s : Ctrl) :
    CommandHistory × Ctrl × Bool :=
  match h.undo_stack.getLast? with
  | none => (h, s, false)
  | some cmd =>
    let rest := h.undo_stack.dropLast
    let p := cmd.undo s
    if p.2 then ({ undo_stack := rest, redo_stack := h.redo_stack }, p.1, true)
    else ({ undo_stack := rest, redo_stack := h.redo_stack ++ [cmd] }, p.1, false)

/-- `CommandHistory.redo` (commands.py 67-75): return silently if the redo
stack is empty, otherwise pop the tail command, invoke its `execute`, and
append it to the undo stack.  A raising `execute` propagates before the
append. -/
def CommandHistory.redo (procs : Nat → Option Img → Option Img)
    (h : CommandHistory) (s : Ctrl) : CommandHistory × Ctrl × Bool :=
  match h.redo_stack.getLast? with
  | none => (h, s, false)
  | some cmd =>
    let rest := h.redo_stack.dropLast
    let p := cmd.execute procs s
    if p.2 then ({ undo_stack := h.undo_stack, redo_stack := rest }, p.1, true)
    else ({ undo_stack := h.undo_stack ++ [cmd], redo_stack := rest }, p.1, false)

/-- Whole-system state: the controller and its history, plus a freshness
counter supplying object identities of newly constructed commands. -/
structure Sys where
  next : Nat
  hist : CommandHistory
  ctrl : Ctrl
  deriving Repr, DecidableEq

/-- `MainWindowController._apply(CmdClass)` (ui.py 317-343): return if no
source is loaded; otherwise construct the command (snapshotting the current
output), push it, then execute it.  The push happens before `execute`, so a
raising `execute` leaves the command on the undo stack (the optimistic-push
policy); ui.py line 330 rereads `cmd.ctrl.img_output`, which is the same
object, so it is a semantic no-op. -/
def applyOp (procs : Nat → Option Img → Option Img) (k : Nat) (t : Sys) :
    Sys × Bool :=
  if t.ctrl.img_source = none then (t, false)
  else
    let cmd := Cmd.image t.next k t.ctrl.img_output
    let h1 := t.hist.push cmd
    let p := cmd.execute procs t.ctrl
    (⟨t.next + 1, h1, p.1⟩, p.2)

/-- `MainWindowController.clear_source` (ui.py 251-265): construct and push a
`ClearSourceCommand`, execute it (emptying the source slot), then also empty
the output slot and its label, and finally clear both history stacks. -/
def clearSourceOp (procs : Nat → Option Img → Option Img) (t : Sys) : Sys :=
  let cmd := Cmd.clearSource t.next t.ctrl.img_source
  let h1 := t.hist.push cmd
  let p := cmd.execute procs t.ctrl
  let s2 := { p.1 with img_output := none, lblOutput := none }
  ⟨t.next + 1, { h1 with undo_stack := [], redo_stack := [] }, s2⟩

/-- `MainWindowController.clear_output` (ui.py 267-278): construct and push a
`ClearOutputCommand`, execute it (emptying the output slot), then clear both
history stacks. -/
def clearOutputOp (procs : Nat → Option Img → Option Img) (t : Sys) : Sys :=
  let cmd := Cmd.clearOutput t.next
  let h1 := t.hist.push cmd
  let p := cmd.execute procs t.ctrl
  ⟨t.next + 1, { h1 with undo_stack := [], redo_stack := [] }, p.1⟩

/-- The user-triggered transitions of the system: loading a source image
(`open_source`, which does not touch the history), applying a processing
command, the undo and redo buttons, and the two clear operations. -/
inductive Sys.StepR (procs : Nat → Option Img → Option Img) : Sys → Sys → Prop where
  | openSrc (img : Img) (t : Sys) :
      Sys.StepR procs t
        ⟨t.next, t.hist, { t.ctrl with img_source := some img, lblSource := some img }⟩
  | applyCmd (k : Nat) (t : Sys) : Sys.StepR procs t (applyOp procs k t).1
  | undoBtn (t : Sys) :
      Sys.StepR procs t
        ⟨t.next, (CommandHistory.undo t.hist t.ctrl).1,
          (CommandHistory.undo t.hist t.ctrl).2.1⟩
  | redoBtn (t : Sys) :
      Sys.StepR procs t
        ⟨t.next, (CommandHistory.redo procs t.hist t.ctrl).1,
          (CommandHistory.redo procs t.hist t.ctrl).2.1⟩
  | clearSrc (t : Sys) : Sys.StepR procs t (clearSourceOp procs t)
  | clearOut (t : Sys) : Sys.StepR procs t (clearOutputOp procs t)

/-- States reachable from the freshly constructed controller (ui.py 31-52:
empty slots, empty history). -/
inductive Sys.Reach (procs : Nat → Option Img → Option Img) : Sys → Prop where
  | start : Sys.Reach procs ⟨0, ⟨[], []⟩, ⟨none, none, none, none⟩⟩
  | step {t u : Sys} : Sys.Reach procs t → Sys.StepR procs t u → Sys.Reach procs u

/-- The object identities currently held anywhere in the history. -/
def histIds (h : CommandHistory) : List Nat :=
  (h.undo_stack ++ h.redo_stack).map Cmd.cid

/-- History bookkeeping invariant: every held identity is below the
freshness counter, and no identity occurs twice across the two stacks. -/
def SysInv (t : Sys) : Prop :=
  (∀ i ∈ histIds t.hist, i < t.next) ∧ (histIds t.hist).Nodup

/-!
Processing layer (processing.py).  Sample values are modelled as rationals;
the skimage routines `color.rgb2gray`, `color.rgb2hsv`,
`threshold_multiotsu`, `threshold_otsu` and the four gradient filters are
external black boxes passed in as parameters.
-/

/-- A numpy array as the processors see it: either a 2-D (grayscale) or a
3-D (multi-channel) array of samples. -/
inductive NpArray where
  | d2 (data : List (List ℚ))
  | d3 (data : List (List (List ℚ)))
  deriving Repr, DecidableEq

/-- `ndim` of the array. -/
def NpArray.ndim : NpArray → Nat
  | .d2 _ => 2
  | .d3 _ => 3

/-- `shape[2]` of a 3-D array (the channel count); `none` for a 2-D array,
where Python would raise an `IndexError` (never evaluated by the modelled
code thanks to `or` short-circuiting). -/
def NpArray.shape2 : NpArray → Option Nat
  | .d2 _ => none
  | .d3 d => some (((d.headD []).headD []).length)

/-- Truncation of a nonnegative sample to `uint8`, as `astype(np.uint8)`
performs on the nonnegative in-range values produced here. -/
def toU8 (x : ℚ) : Nat := x.floor.toNat % 256

/-- Model of `(arr * 255).astype(np.uint8)` on a whole array. -/
def npScale255 : NpArray → NpArray
  | .d2 d => .d2 (d.map (fun row => row.map (fun x => ((toU8 (x * 255) : Nat) : ℚ))))
  | .d3 d => .d3 (d.map (fun pl => pl.map (fun row => row.map (fun x => ((toU8 (x * 255) : Nat) : ℚ)))))

/-- `Rgb2HsvProcessor.process` (processing.py 52-62): a non-3-channel input
is returned unchanged; otherwise the library conversion `rgb2hsv` is applied
and scaled to 8-bit.  The single guard `ndim ≠ 3 ∨ shape2 ≠ 3` mirrors the
short-circuit `or` of line 59. -/
def Rgb2HsvProcessor.process (rgb2hsv : NpArray → NpArray) (image : NpArray) :
    NpArray :=
  if image.ndim ≠ 3 ∨ image.shape2 ≠ some 3 then image
  else npScale255 (rgb2hsv image)

/-- The `gray = color.rgb2gray(image) if image.ndim == 3 else image` pattern
shared by the segmentation and edge processors. -/
def toGray (rgb2gray : NpArray → List (List ℚ)) (image : NpArray) :
    List (List ℚ) :=
  match image with
  | .d3 d => rgb2gray (.d3 d)
  | .d2 d => d

/-- `np.digitize(x, bins)` for sorted `bins` with the default
`right = False`: the index of the first bin strictly above `x`, i.e. the
number of bins at or below `x`. -/
def digitize (bins : List ℚ) (x : ℚ) : Nat :=
  bins.countP (fun t => decide (t ≤ x))

/-- Maximum of a list of naturals (`result.max()`; numpy raises on an empty
array, the claims below only use it on nonempty data). -/
def natMax : List Nat → Nat
  | [] => 0
  | x :: xs => max x (natMax xs)

/-- The class-index array of `MultiOtsuProcessor.process` (processing.py
84-86): grayscale conversion if needed, then `np.digitize` against the
thresholds delivered by the black-box `threshold_multiotsu` (parameter
`tmo`). -/
def multiOtsuClasses (rgb2gray : NpArray → List (List ℚ))
    (tmo : List (List ℚ) → List ℚ) (image : NpArray) : List (List Nat) :=
  (toGray rgb2gray image).map
    (fun row => row.map (digitize (tmo (toGray rgb2gray image))))

/-- `MultiOtsuProcessor.process` (processing.py 73-88): the class indices
scaled by `(result * (255 // result.max())).astype(np.uint8)`.  The scale is
the integer quotient `255 / max`; numpy integer division by zero yields 0
(with a warning), matching Nat division.  The final `% 256` is the `uint8`
cast. -/
def MultiOtsuProcessor.process (rgb2gray : NpArray → List (List ℚ))
    (tmo : List (List ℚ) → List ℚ) (image : NpArray) : List (List Nat) :=
  let result := multiOtsuClasses rgb2gray tmo image
  result.map (fun row => row.map
    (fun c => (c * (255 / natMax result.flatten)) % 256))

/-- Minimum of a nonempty list of rationals (`res.min()`). -/
def listMinQ : List ℚ → ℚ
  | [] => 0
  | [x] => x
  | x :: y :: xs => min x (listMinQ (y :: xs))

/-- Maximum of a nonempty list of rationals (`res.max()`). -/
def listMaxQ : List ℚ → ℚ
  | [] => 0
  | [x] => x
  | x :: y :: xs => max x (listMaxQ (y :: xs))

/-- Global minimum of a 2-D array. -/
def arrMin (xss : List (List ℚ)) : ℚ := listMinQ xss.flatten

/-- Global maximum of a 2-D array. -/
def arrMax (xss : List (List ℚ)) : ℚ := listMaxQ xss.flatten

/-- Line 155 of processing.py: `res = res - res.min()`. -/
def emphShift (res : List (List ℚ)) : List (List ℚ) :=
  res.map (fun row => row.map (fun x => x - arrMin res))

/-- Lines 156-157: `if res.max() > 0: res /= res.max()`. -/
def emphNorm (res : List (List ℚ)) : List (List ℚ) :=
  if arrMax res > 0 then res.map (fun row => row.map (fun x => x / arrMax res))
  else res

/-- Line 159: `out = (res - thr) / (1 - thr) if (1 - thr) > 0 else res`. -/
def emphRescale (thr : ℚ) (res : List (List ℚ)) : List (List ℚ) :=
  if 1 - thr > 0 then
    res.map (fun row => row.map (fun x => (x - thr) / (1 - thr)))
  else res

/-- `np.clip(x, 0, 1)`. -/
def clip01 (x : ℚ) : ℚ := min 1 (max 0 x)

/-- The shared `_edge_emphasize` post-filter (processing.py 145-161), with
the automatic threshold `threshold_otsu` as black-box parameter `otsu`. -/
def edge_emphasize (otsu : List (List ℚ) → ℚ) (res : List (List ℚ)) :
    List (List Nat) :=
  let r1 := emphShift res
  let r2 := emphNorm r1
  let out := emphRescale (otsu r2) r2
  out.map (fun row => row.map (fun x => toU8 (clip01 x * 255)))

/-- Division with an explicit divide-by-zero check, used to instrument the
two division sites of `_edge_emphasize`. -/
def emphNormChecked (res : List (List ℚ)) : Option (List (List ℚ)) :=
  if arrMax res > 0 then
    if arrMax res = 0 then none
    else some (res.map (fun row => row.map (fun x => x / arrMax res)))
  else some res

/-- The rescale step with an explicit divide-by-zero check at its division
site. -/
def emphRescaleChecked (thr : ℚ) (res : List (List ℚ)) :
    Option (List (List ℚ)) :=
  if 1 - thr > 0 then
    if 1 - thr = 0 then none
    else some (res.map (fun row => row.map (fun x => (x - thr) / (1 - thr))))
  else some res

/-- `_edge_emphasize` instrumented to return `none` if any division site
would divide by zero. -/
def edge_emphasizeChecked (otsu : List (List ℚ) → ℚ) (res : List (List ℚ)) :
    Option (List (List Nat)) := do
  let r1 := emphShift res
  let r2 ← emphNormChecked r1
  let out ← emphRescaleChecked (otsu r2) r2
  some (out.map (fun row => row.map (fun x => toU8 (clip01 x * 255))))

/-- `RobertsProcessor.process` (processing.py 164-180): grayscale if needed,
the black-box `filters.roberts`, then the shared emphasize post-filter. -/
def RobertsProcessor.process (rgb2gray : NpArray → List (List ℚ))
    (roberts : List (List ℚ) → List (List ℚ)) (otsu : List (List ℚ) → ℚ)
    (image : NpArray) : List (List Nat) :=
  edge_emphasize otsu (roberts (toGray rgb2gray image))

/-- `SobelProcessor.process` (processing.py 183-199). -/
def SobelProcessor.process (rgb2gray : NpArray → List (List ℚ))
    (sobel : List (List ℚ) → List (List ℚ)) (otsu : List (List ℚ) → ℚ)
    (image : NpArray) : List (List Nat) :=
  edge_emphasize otsu (sobel (toGray rgb2gray image))

/-- `ScharrProcessor.process` (processing.py 202-218). -/
def ScharrProcessor.process (rgb2gray : NpArray → List (List ℚ))
    (scharr : List (List ℚ) → List (List ℚ)) (otsu : List (List ℚ) → ℚ)
    (image : NpArray) : List (List Nat) :=
  edge_emphasize otsu (scharr (toGray rgb2gray image))

/-- `PrewittProcessor.process` (processing.py 221-237). -/
def PrewittProcessor.process (rgb2gray : NpArray → List (List ℚ))
    (prewitt : List (List ℚ) → List (List ℚ)) (otsu : List (List ℚ) → ℚ)
    (image : NpArray) : List (List Nat) :=
  edge_emphasize otsu (prewitt (toGray rgb2gray image))

/-!
Helper lemmas.
-/

theorem mem_le_natMax {l : List Nat} {a : Nat} (ha : a ∈ l) : a ≤ natMax l := by
  induction l with
  | nil => cases ha
  | cons x xs ih =>
    rcases List.mem_cons.mp ha with rfl | h
    · exact le_max_left _ _
    · exact le_trans (ih h) (le_max_right _ _)

theorem natMax_map_mul (l : List Nat) (k : Nat) :
    natMax (l.map (fun c => c * k)) = natMax l * k := by
  induction l with
  | nil => simp [natMax]
  | cons x xs ih =>
    show max (x * k) (natMax (xs.map (fun c => c * k))) = max x (natMax xs) * k
    rw [ih, Nat.mul_max_mul_right]

theorem listMinQ_map_sub (l : List ℚ) (m : ℚ) (hl : l ≠ []) :
    listMinQ (l.map (fun x => x - m)) = listMinQ l - m := by
  induction l with
  | nil => exact absurd rfl hl
  | cons x xs ih =>
    cases xs with
    | nil => simp [listMinQ]
    | cons y ys =>
      show min (x - m) (listMinQ ((y :: ys).map (fun x => x - m)))
          = min x (listMinQ (y :: ys)) - m
      rw [ih (by simp), min_sub_sub_right]

/-- C2: undo/redo round-trip.  For every image-processing command whose
snapshot is the controller output at construction (or the empty sentinel),
`execute` followed by `undo` restores the output slot byte-for-byte, the
empty-sentinel case included, and regardless of whether the black-box
processor succeeds or raises. -/
theorem c2_undo_restores_prior_output (procs : Nat → Option Img → Option Img)
    (i k : Nat) (s : Ctrl) :
    ((Cmd.image i k s.img_output).undo
      ((Cmd.image i k s.img_output).execute procs s).1).1.img_output
      = s.img_output := by
  cases ho : s.img_output <;> cases hp : procs k s.img_source <;>
    simp [Cmd.execute, Cmd.undo, show_image, hp, ho]

/-- C6: the HSV conversion processor returns any non-3-channel input
unchanged, as an identity no-op rather than an error. -/
theorem c6_hsv_identity_on_non_rgb (rgb2hsv : NpArray → NpArray)
    (image : NpArray) (h : image.ndim ≠ 3 ∨ image.shape2 ≠ some 3) :
    Rgb2HsvProcessor.process rgb2hsv image = image := by
  unfold Rgb2HsvProcessor.process
  rw [if_pos h]

/-- Witness for C6 at a concrete 2-D input. -/
theorem c6_witness :
    (NpArray.d2 [[1]]).ndim ≠ 3 ∧
    Rgb2HsvProcessor.process (fun a => a) (NpArray.d2 [[1]]) = NpArray.d2 [[1]] :=
  ⟨by decide, c6_hsv_identity_on_non_rgb (fun a => a) (NpArray.d2 [[1]])
    (Or.inl (by decide))⟩

/-- C7: clear-output is irreversible.  `execute` empties the output slot, its
`undo` is a no-op (no state change, no raise), so the round trip leaves the
output empty and never restores the pre-clear output. -/
theorem c7_clear_output_irreversible (procs : Nat → Option Img → Option Img)
    (i : Nat) (s : Ctrl) :
    (((Cmd.clearOutput i).execute procs s).1).img_output = none ∧
    (Cmd.clearOutput i).undo (((Cmd.clearOutput i).execute procs s).1)
      = ((((Cmd.clearOutput i).execute procs s).1), false) ∧
    ((Cmd.clearOutput i).undo
      (((Cmd.clearOutput i).execute procs s).1)).1.img_output = none := by
  simp [Cmd.execute, Cmd.undo]

/-- C8: clear-source is reversible.  For any controller state, `execute`
empties the source slot and the `execute`-then-`undo` round trip restores the
exact source image present at the command's construction. -/
theorem c8_clear_source_reversible (procs : Nat → Option Img → Option Img)
    (i : Nat) (s : Ctrl) :
    (((Cmd.clearSource i s.img_source).execute procs s).1).img_source = none ∧
    ((Cmd.clearSource i s.img_source).undo
      (((Cmd.clearSource i s.img_source).execute procs s).1)).1.img_source
      = s.img_source := by
  cases hs : s.img_source <;> simp [Cmd.execute, Cmd.undo, show_image, hs]

/-- C10: after the controller's `clear_source` or `clear_output`, both
history stacks are empty, undo and redo are consequently silent no-ops, and
`clear_source` empties the output slot in addition to the source slot. -/
theorem c10_clear_ops_discard_history (procs : Nat → Option Img → Option Img)
    (t : Sys) (s' : Ctrl) :
    (clearSourceOp procs t).hist.undo_stack = [] ∧
    (clearSourceOp procs t).hist.redo_stack = [] ∧
    (clearOutputOp procs t).hist.undo_stack = [] ∧
    (clearOutputOp procs t).hist.redo_stack = [] ∧
    CommandHistory.undo (clearSourceOp procs t).hist s'
      = ((clearSourceOp procs t).hist, s', false) ∧
    CommandHistory.redo procs (clearSourceOp procs t).hist s'
      = ((clearSourceOp procs t).hist, s', false) ∧
    CommandHistory.undo (clearOutputOp procs t).hist s'
      = ((clearOutputOp procs t).hist, s', false) ∧
    CommandHistory.redo procs (clearOutputOp procs t).hist s'
      = ((clearOutputOp procs t).hist, s', false) ∧
    (clearSourceOp procs t).ctrl.img_source = none ∧
    (clearSourceOp procs t).ctrl.img_output = none ∧
    (clearOutputOp procs t).ctrl.img_output = none := by
  refine ⟨rfl, rfl, rfl, rfl, rfl, rfl, rfl, rfl, rfl, rfl, rfl⟩

/-- C1: `push` appends to the undo stack and unconditionally empties the redo
stack; after `push a; undo(); push b` the redo stack is empty, `redo()` is a
no-op, and a command `a` not already in the history is on neither stack, so
it is permanently unreachable via redo. -/
theorem c1_push_discards_redo_future (procs : Nat → Option Img → Option Img)
    (a b : Cmd) (h : CommandHistory) (s s' : Ctrl)
    (hab : a ≠ b) (ha : a ∉ h.undo_stack) :
    (h.push a).undo_stack = h.undo_stack ++ [a] ∧
    (h.push a).redo_stack = [] ∧
    (((h.push a).undo s).1.push b).redo_stack = [] ∧
    CommandHistory.redo procs (((h.push a).undo s).1.push b) s'
      = ((((h.push a).undo s).1.push b), s', false) ∧
    a ∉ (((h.push a).undo s).1.push b).undo_stack ∧
    a ∉ (((h.push a).undo s).1.push b).redo_stack := by
  have key : ((h.push a).undo s).1.undo_stack = h.undo_stack := by
    simp only [CommandHistory.undo, CommandHistory.push, List.getLast?_concat,
      List.dropLast_concat]
    split <;> rfl
  refine ⟨rfl, rfl, rfl, rfl, ?_, ?_⟩
  · show a ∉ ((h.push a).undo s).1.undo_stack ++ [b]
    rw [key]
    simp [ha, hab]
  · show a ∉ ([] : List Cmd)
    simp

/-- Witness for C1 at a concrete history, state and command pair. -/
theorem c1_witness :
    Cmd.clearOutput 0 ≠ Cmd.clearOutput 1 ∧
    Cmd.clearOutput 0
      ∉ (((((CommandHistory.mk [] []).push (Cmd.clearOutput 0)).undo
          ⟨none, none, none, none⟩).1.push (Cmd.clearOutput 1)).undo_stack) := by
  refine ⟨by decide, ?_⟩
  exact (c1_push_discards_redo_future (fun _ _ => none) (Cmd.clearOutput 0)
    (Cmd.clearOutput 1) (CommandHistory.mk [] []) ⟨none, none, none, none⟩
    ⟨none, none, none, none⟩ (by decide) (by simp)).2.2.2.2.1

/-- C4: `undo` on an empty undo stack and `redo` on an empty redo stack are
silent no-ops (no error, no state change); otherwise `undo` pops the tail
command, invokes its `undo`, and appends it to the redo stack, and `redo`
symmetrically pops the redo tail, invokes its `execute`, and appends it to
the undo stack (stated for a command whose invoked operation returns
normally, the straight-line behavior of commands.py 57-75). -/
theorem c4_undo_redo_pop_semantics (procs : Nat → Option Img → Option Img)
    (h : CommandHistory) (s s' : Ctrl) (c : Cmd) (u : List Cmd) :
    (h.undo_stack = [] → h.undo s = (h, s, false)) ∧
    (h.redo_stack = [] → CommandHistory.redo procs h s = (h, s, false)) ∧
    (h.undo_stack = u ++ [c] → c.undo s = (s', false) →
      h.undo s = (⟨u, h.redo_stack ++ [c]⟩, s', false)) ∧
    (h.redo_stack = u ++ [c] → c.execute procs s = (s', false) →
      CommandHistory.redo procs h s = (⟨h.undo_stack ++ [c], u⟩, s', false)) := by
  refine ⟨?_, ?_, ?_, ?_⟩
  · intro he
    simp [CommandHistory.undo, he]
  · intro he
    simp [CommandHistory.redo, he]
  · intro he hc
    simp [CommandHistory.undo, he, List.getLast?_concat, List.dropLast_concat, hc]
  · intro he hc
    simp [CommandHistory.redo, he, List.getLast?_concat, List.dropLast_concat, hc]

/-- Witness for C4 at concrete histories: the empty no-op cases and one
pop-and-move in each direction. -/
theorem c4_witness :
    CommandHistory.undo (CommandHistory.mk [] []) ⟨none, none, none, none⟩
      = (CommandHistory.mk [] [], ⟨none, none, none, none⟩, false) ∧
    CommandHistory.redo (fun _ _ => none) (CommandHistory.mk [] [])
        ⟨none, none, none, none⟩
      = (CommandHistory.mk [] [], ⟨none, none, none, none⟩, false) ∧
    CommandHistory.undo (CommandHistory.mk [Cmd.clearOutput 0] [])
        ⟨none, none, none, none⟩
      = (CommandHistory.mk [] [Cmd.clearOutput 0], ⟨none, none, none, none⟩,
          false) ∧
    CommandHistory.redo (fun _ _ => none)
        (CommandHistory.mk [] [Cmd.clearOutput 0]) ⟨none, none, none, none⟩
      = (CommandHistory.mk [Cmd.clearOutput 0] [], ⟨none, none, none, none⟩,
          false) := by
  refine ⟨?_, ?_, ?_, ?_⟩
  · exact (c4_undo_redo_pop_semantics (fun _ _ => none) (CommandHistory.mk [] [])
      ⟨none, none, none, none⟩ ⟨none, none, none, none⟩ (Cmd.clearOutput 0)
      []).1 rfl
  · exact (c4_undo_redo_pop_semantics (fun _ _ => none) (CommandHistory.mk [] [])
      ⟨none, none, none, none⟩ ⟨none, none, none, none⟩ (Cmd.clearOutput 0)
      []).2.1 rfl
  · exact (c4_undo_redo_pop_semantics (fun _ _ => none)
      (CommandHistory.mk [Cmd.clearOutput 0] []) ⟨none, none, none, none⟩
      ⟨none, none, none, none⟩ (Cmd.clearOutput 0) []).2.2.1 rfl rfl
  · exact (c4_undo_redo_pop_semantics (fun _ _ => none)
      (CommandHistory.mk [] [Cmd.clearOutput 0]) ⟨none, none, none, none⟩
      ⟨none, none, none, none⟩ (Cmd.clearOutput 0) []).2.2.2 rfl rfl

theorem subperm_nodup {l₁ l₂ : List Nat} (h : List.Subperm l₁ l₂)
    (h2 : l₂.Nodup) : l₁.Nodup := by
  obtain ⟨l, hp, hs⟩ := h
  exact hp.nodup (h2.sublist hs)

theorem undo_histIds_subperm (h : CommandHistory) (s : Ctrl) :
    List.Subperm (histIds (h.undo s).1) (histIds h) := by
  rcases List.eq_nil_or_concat h.undo_stack with he | ⟨u, c, he⟩
  · have hres : (h.undo s).1 = h := by simp [CommandHistory.undo, he]
    rw [hres]
  · rw [List.concat_eq_append] at he
    unfold CommandHistory.undo
    rw [he, List.getLast?_concat, List.dropLast_concat]
    dsimp only
    split
    · refine List.Sublist.subperm ?_
      simp only [histIds, he]
      refine List.Sublist.map _ ?_
      exact List.Sublist.append (List.sublist_append_left u [c])
        (List.Sublist.refl _)
    · refine List.Perm.subperm ?_
      simp only [histIds, he]
      refine List.Perm.map _ ?_
      rw [List.append_assoc]
      exact List.Perm.append_left u
        (@List.perm_append_comm _ h.redo_stack [c])

theorem redo_histIds_subperm (procs : Nat → Option Img → Option Img)
    (h : CommandHistory) (s : Ctrl) :
    List.Subperm (histIds (CommandHistory.redo procs h s).1) (histIds h) := by
  rcases List.eq_nil_or_concat h.redo_stack with he | ⟨u, c, he⟩
  · have hres : (CommandHistory.redo procs h s).1 = h := by
      simp [CommandHistory.redo, he]
    rw [hres]
  · rw [List.concat_eq_append] at he
    unfold CommandHistory.redo
    rw [he, List.getLast?_concat, List.dropLast_concat]
    dsimp only
    split
    · refine List.Sublist.subperm ?_
      simp only [histIds, he]
      refine List.Sublist.map _ ?_
      exact List.Sublist.append (List.Sublist.refl _)
        (List.sublist_append_left u [c])
    · refine List.Perm.subperm ?_
      simp only [histIds, he]
      refine List.Perm.map _ ?_
      rw [List.append_assoc]
      exact List.Perm.append_left h.undo_stack
        (@List.perm_append_comm _ [c] u)

theorem sysInv_push (t : Sys) (c : Cmd) (hc : c.cid = t.next) (ht : SysInv t)
    (s' : Ctrl) : SysInv ⟨t.next + 1, t.hist.push c, s'⟩ := by
  obtain ⟨hb, hn⟩ := ht
  have hids : histIds (t.hist.push c)
      = t.hist.undo_stack.map Cmd.cid ++ [t.next] := by
    simp [histIds, CommandHistory.push, hc]
  have hsubu : ∀ i ∈ t.hist.undo_stack.map Cmd.cid, i ∈ histIds t.hist := by
    intro i hi
    simp only [histIds, List.map_append, List.mem_append]
    exact Or.inl hi
  constructor
  · intro i hi
    rw [hids] at hi
    rcases List.mem_append.mp hi with hi | hi
    · exact lt_trans (hb i (hsubu i hi)) (Nat.lt_succ_self _)
    · rcases List.mem_singleton.mp hi with rfl
      exact Nat.lt_succ_self _
  · rw [hids]
    rw [List.nodup_append]
    refine ⟨?_, List.nodup_singleton _, ?_⟩
    · have : (histIds t.hist).Nodup := hn
      rw [histIds, List.map_append] at this
      exact (List.nodup_append.mp this).1
    · intro i hi hj
      obtain rfl := List.mem_singleton.mp hj
      exact lt_irrefl _ (hb _ (hsubu _ hi))

theorem sysInv_start : SysInv ⟨0, ⟨[], []⟩, ⟨none, none, none, none⟩⟩ := by
  constructor
  · intro i hi
    simp [histIds] at hi
  · simp [histIds]

theorem sysInv_step (procs : Nat → Option Img → Option Img) {t u : Sys}
    (hs : Sys.StepR procs t u) (ht : SysInv t) : SysInv u := by
  cases hs with
  | openSrc img t => exact ht
  | applyCmd k t =>
    unfold applyOp
    split
    · exact ht
    · exact sysInv_push t (Cmd.image t.next k t.ctrl.img_output) rfl ht _
  | undoBtn t =>
    obtain ⟨hb, hn⟩ := ht
    have hsub := undo_histIds_subperm t.hist t.ctrl
    exact ⟨fun i hi => hb i (hsub.subset hi), subperm_nodup hsub hn⟩
  | redoBtn t =>
    obtain ⟨hb, hn⟩ := ht
    have hsub := redo_histIds_subperm procs t.hist t.ctrl
    exact ⟨fun i hi => hb i (hsub.subset hi), subperm_nodup hsub hn⟩
  | clearSrc t =>
    constructor
    · intro i hi
      simp [clearSourceOp, histIds] at hi
    · simp [clearSourceOp, histIds]
  | clearOut t =>
    constructor
    · intro i hi
      simp [clearOutputOp, histIds] at hi
    · simp [clearOutputOp, histIds]

theorem reach_sysInv (procs : Nat → Option Img → Option Img) (t : Sys)
    (h : Sys.Reach procs t) : SysInv t := by
  induction h with
  | start => exact sysInv_start
  | step hr hs ih => exact sysInv_step procs hs ih

/-- C3: at every reachable system state, no command instance sits on both
stacks at once, and the history bookkeeping stays consistent (distinct
identities across both stacks) even when a command's `execute` raises during
the optimistic-push apply flow or during redo, or its `undo` raises during
undo. -/
theorem c3_at_most_one_stack (procs : Nat → Option Img → Option Img)
    (t : Sys) (h : Sys.Reach procs t) :
    (∀ c : Cmd, ¬(c ∈ t.hist.undo_stack ∧ c ∈ t.hist.redo_stack)) ∧
    (histIds t.hist).Nodup := by
  have hn := (reach_sysInv procs t h).2
  refine ⟨?_, hn⟩
  rintro c ⟨hu, hr⟩
  rw [histIds, List.map_append] at hn
  exact (List.disjoint_of_nodup_append hn)
    (List.mem_map_of_mem Cmd.cid hu) (List.mem_map_of_mem Cmd.cid hr)

/-- Witness for C3 at a concrete reachable state: load a source image, then
apply one processing command. -/
theorem c3_witness :
    ¬(Cmd.image 0 0 none ∈ [Cmd.image 0 0 none] ∧
      Cmd.image 0 0 none ∈ ([] : List Cmd)) := by
  have hreach : Sys.Reach (fun _ _ => some [[1]])
      (applyOp (fun _ _ => some [[1]]) 0
        ⟨0, ⟨[], []⟩, ⟨some [[1]], none, some [[1]], none⟩⟩).1 :=
    Sys.Reach.step (Sys.Reach.step Sys.Reach.start (Sys.StepR.openSrc [[1]] _))
      (Sys.StepR.applyCmd 0 _)
  have h := (c3_at_most_one_stack (fun _ _ => some [[1]]) _ hreach).1
    (Cmd.image 0 0 none)
  exact h

/-- C5 counterexample: on the grayscale image `[[0, 100, 200]]` with the two
threshold cut points 50 and 150 (the cuts separating its three intensity
groups), the class indices are `[[0, 1, 2]]` and the scaled output is
`[[0, 127, 254]]`: the maximum class present maps to 254, not to 255, because
the code multiplies by the integer quotient `255 // 2 = 127`. -/
theorem c5_counterexample :
    MultiOtsuProcessor.process (fun _ => []) (fun _ => [50, 150])
      (NpArray.d2 [[0, 100, 200]]) = [[0, 127, 254]] ∧
    multiOtsuClasses (fun _ => []) (fun _ => [50, 150])
      (NpArray.d2 [[0, 100, 200]]) = [[0, 1, 2]] ∧
    natMax (MultiOtsuProcessor.process (fun _ => []) (fun _ => [50, 150])
      (NpArray.d2 [[0, 100, 200]])).flatten ≠ 255 := by
  refine ⟨by decide, by decide, by decide⟩

/-- C5 as amended: segmentation bucket-assigns every pixel to one of 3 class
indices via the two threshold cut points, and the scaling multiplies every
class index by the integer quotient of 255 by the maximum class index
present, so that maximum maps to `m * (255 / m)` (254 when `m = 2`, the
usual three-class case), not exactly to 255 in general. -/
theorem c5_scaling_by_integer_quotient (rgb2gray : NpArray → List (List ℚ))
    (tmo : List (List ℚ) → List ℚ) (image : NpArray)
    (h2 : (tmo (toGray rgb2gray image)).length = 2)
    (_hm : 0 < natMax (multiOtsuClasses rgb2gray tmo image).flatten) :
    (∀ row ∈ multiOtsuClasses rgb2gray tmo image, ∀ c ∈ row, c < 3) ∧
    natMax (MultiOtsuProcessor.process rgb2gray tmo image).flatten
      = natMax (multiOtsuClasses rgb2gray tmo image).flatten
          * (255 / natMax (multiOtsuClasses rgb2gray tmo image).flatten) := by
  constructor
  · intro row hrow c hc
    unfold multiOtsuClasses at hrow
    obtain ⟨row0, hrow0, rfl⟩ := List.mem_map.mp hrow
    obtain ⟨x, hx, rfl⟩ := List.mem_map.mp hc
    calc digitize (tmo (toGray rgb2gray image)) x
        ≤ (tmo (toGray rgb2gray image)).length := List.countP_le_length _
      _ < 3 := by rw [h2]; exact Nat.lt_succ_self 2
  · unfold MultiOtsuProcessor.process
    set R := multiOtsuClasses rgb2gray tmo image with hR
    set m := natMax R.flatten with hmdef
    set k := 255 / m with hk
    have hflat : (R.map (fun row => row.map (fun c => (c * k) % 256))).flatten
        = R.flatten.map (fun c => (c * k) % 256) :=
      (List.map_flatten _ R).symm
    rw [hflat]
    have hsmall : ∀ c ∈ R.flatten, (c * k) % 256 = c * k := by
      intro c hc
      refine Nat.mod_eq_of_lt ?_
      have h1 : c * k ≤ m * k := Nat.mul_le_mul_right k (mem_le_natMax hc)
      have h2 : m * k ≤ 255 := by
        rw [hk, Nat.mul_comm]
        exact Nat.div_mul_le_self 255 m
      exact lt_of_le_of_lt (le_trans h1 h2) (by norm_num)
    rw [List.map_congr_left hsmall, natMax_map_mul]

/-- Witness for C5 at the counterexample input: the output maximum is
`2 * (255 / 2) = 254`. -/
theorem c5_witness :
    natMax (MultiOtsuProcessor.process (fun _ => []) (fun _ => [50, 150])
      (NpArray.d2 [[0, 100, 200]])).flatten = 2 * (255 / 2) := by
  have h := (c5_scaling_by_integer_quotient (fun _ => []) (fun _ => [50, 150])
    (NpArray.d2 [[0, 100, 200]]) rfl (by decide)).2
  have e : natMax (multiOtsuClasses (fun _ => []) (fun _ => [50, 150])
      (NpArray.d2 [[0, 100, 200]])).flatten = 2 := by decide
  rw [e] at h
  exact h

/-- C9: the shared edge-emphasize post-filter never divides by zero (the
instrumented version always succeeds and agrees with the plain one), the
shift step makes the minimum 0, the max-normalization is skipped when the
maximum is 0, the threshold-rescaling is skipped (the normalized response is
used directly) when the automatic threshold equals 1 exactly, and the one
`_edge_emphasize` implementation is the post-filter applied by all four edge
processors. -/
theorem c9_edge_emphasize_guards (otsu : List (List ℚ) → ℚ)
    (res r : List (List ℚ)) (thr : ℚ) (rgb2gray : NpArray → List (List ℚ))
    (fR fS fC fP : List (List ℚ) → List (List ℚ)) (image : NpArray) :
    edge_emphasizeChecked otsu res = some (edge_emphasize otsu res) ∧
    (res.flatten ≠ [] → arrMin (emphShift res) = 0) ∧
    (arrMax (emphShift res) = 0 → emphNorm (emphShift res) = emphShift res) ∧
    (thr = 1 → emphRescale thr r = r) ∧
    RobertsProcessor.process rgb2gray fR otsu image
      = edge_emphasize otsu (fR (toGray rgb2gray image)) ∧
    SobelProcessor.process rgb2gray fS otsu image
      = edge_emphasize otsu (fS (toGray rgb2gray image)) ∧
    ScharrProcessor.process rgb2gray fC otsu image
      = edge_emphasize otsu (fC (toGray rgb2gray image)) ∧
    PrewittProcessor.process rgb2gray fP otsu image
      = edge_emphasize otsu (fP (toGray rgb2gray image)) := by
  have hnorm : ∀ r1 : List (List ℚ),
      emphNormChecked r1 = some (emphNorm r1) := by
    intro r1
    unfold emphNormChecked emphNorm
    by_cases h1 : arrMax r1 > 0
    · rw [if_pos h1, if_neg (ne_of_gt h1), if_pos h1]
    · rw [if_neg h1, if_neg h1]
  have hresc : ∀ (th : ℚ) (r1 : List (List ℚ)),
      emphRescaleChecked th r1 = some (emphRescale th r1) := by
    intro th r1
    unfold emphRescaleChecked emphRescale
    by_cases h1 : 1 - th > 0
    · rw [if_pos h1, if_neg (ne_of_gt h1), if_pos h1]
    · rw [if_neg h1, if_neg h1]
  refine ⟨?_, ?_, ?_, ?_, rfl, rfl, rfl, rfl⟩
  · show edge_emphasizeChecked otsu res = some (edge_emphasize otsu res)
    unfold edge_emphasizeChecked edge_emphasize
    simp only [hnorm, hresc, Option.bind_eq_bind, Option.some_bind]
  · intro hne
    show listMinQ ((res.map
      (fun row => row.map (fun x => x - arrMin res))).flatten) = 0
    rw [← List.map_flatten]
    rw [listMinQ_map_sub _ _ hne]
    show listMinQ res.flatten - listMinQ res.flatten = 0
    exact sub_self _
  · intro h0
    unfold emphNorm
    rw [h0]
    simp
  · intro h1
    unfold emphRescale
    rw [h1]
    simp

/-- Witness for C9 at concrete inputs: a constant response, for which the
shifted minimum is 0 and the maximum-zero guard fires, and threshold 1, for
which the rescale step is skipped. -/
theorem c9_witness :
    arrMin (emphShift [[5, 5]]) = 0 ∧
    emphNorm (emphShift [[5, 5]]) = emphShift [[5, 5]] ∧
    emphRescale 1 [[(0 : ℚ)]] = [[0]] := by
  have h := c9_edge_emphasize_guards (fun _ => 1) [[5, 5]] [[(0 : ℚ)]] 1
    (fun _ => []) id id id id (NpArray.d2 [])
  refine ⟨h.2.1 (by decide), h.2.2.1 ?_, h.2.2.2.1 rfl⟩
  show listMaxQ ((emphShift [[5, 5]]).flatten) = 0
  norm_num [emphShift, arrMin, listMinQ, listMaxQ]
